import Mathlib

/-!
Shallow embedding of the chess GUI's network-synchronization core
(`src/main.rs`, `src/network.rs`).

Conventions of the embedding:
* Rust `usize` arithmetic is `Nat`; a debug-mode panic (underflow,
  out-of-bounds index, `unwrap`, `panic!`, failed `assert!`) is `Option.none`
  or an `Except.error` carrying the panic site's kind.
* The legal-move engine `jonathan_hallstrom_chess::Board` is an external
  oracle (spec §1 treats it as an opaque collaborator), so it is a type
  parameter `B` together with an `Engine B` record of the three operations
  the core calls on it.
* An internal `jonathan_hallstrom_chess::Move` is observed by this code only
  through `to_algebraic_notation()`; it is embedded as a record holding that
  string (as a `List Char`, field `algebraic`).
* Wire types from the external `chess_network_protocol` crate are embedded
  with the constructors this code uses.
-/

namespace Chess

/-- `jonathan_hallstrom_chess::Color`. -/
inductive Color where
  | White
  | Black
deriving DecidableEq

/-- `chess_network_protocol::Color`. -/
inductive NetColor where
  | White
  | Black
deriving DecidableEq

/-- `Square` from `src/main.rs`: the internal board cell. -/
inductive Square where
  | Empty
  | Pawn (color : Color)
  | Rook (color : Color)
  | Bishop (color : Color)
  | Knight (color : Color)
  | King (color : Color)
  | Queen (color : Color)
deriving DecidableEq

/-- `chess_network_protocol::Piece`: 13-way color-qualified wire piece tag. -/
inductive NetPiece where
  | None
  | WhitePawn
  | BlackPawn
  | WhiteRook
  | BlackRook
  | WhiteKnight
  | BlackKnight
  | WhiteBishop
  | BlackBishop
  | WhiteQueen
  | BlackQueen
  | WhiteKing
  | BlackKing
deriving DecidableEq

/-- `chess_network_protocol::Joever`: the game-outcome tag. -/
inductive Joever where
  | Ongoing
  | White
  | Black
  | Draw
deriving DecidableEq

/-- `chess_network_protocol::Features` (the two flags this code sends). -/
inductive Features where
  | EnPassant
  | Promotion
deriving DecidableEq

/-- `chess_network_protocol::Move`: the wire move record. -/
structure NetMove where
  start_x : Nat
  start_y : Nat
  end_x : Nat
  end_y : Nat
  promotion : NetPiece
deriving DecidableEq

/-- An internal `jonathan_hallstrom_chess::Move`, observed through its
`to_algebraic_notation()` string (field `algebraic`). -/
structure Move where
  algebraic : List Char
deriving DecidableEq

/-- The internal 8×8 board snapshot `[[Square; 8]; 8]`. -/
def Board : Type := Fin 8 → Fin 8 → Square

/-- The wire 8×8 board `[[chess_network_protocol::Piece; 8]; 8]`. -/
def WireBoard : Type := Fin 8 → Fin 8 → NetPiece

/-- `to_cordinate` (`src/main.rs` lines 122–128).
Rust: `if c >= 'a' && c <= 'h' { return c - 'a'; } 7 - (c - '1')`.
The fallthrough subtractions are `usize` subtractions that panic (debug mode)
when they underflow: `c - '1'` needs `'1' <= c`, and `7 - (c - '1')` needs
`c - '1' <= 7`; outside those bounds the result is `none` (panic). -/
def to_cordinate (c : Char) : Option Nat :=
  if 'a'.toNat ≤ c.toNat ∧ c.toNat ≤ 'h'.toNat then
    some (c.toNat - 'a'.toNat)
  else if '1'.toNat ≤ c.toNat ∧ c.toNat - '1'.toNat ≤ 7 then
    some (7 - (c.toNat - '1'.toNat))
  else
    none

/-- `parse_move` (`src/main.rs` lines 131–137).
Collects the chars and returns `((to_cordinate x1, to_cordinate x0),
(to_cordinate x3, to_cordinate x2))`; indexing past the end of the string
panics (`none`). -/
def parse_move (mv : List Char) : Option ((Nat × Nat) × (Nat × Nat)) := do
  let c0 ← mv.get? 0
  let c1 ← mv.get? 1
  let c2 ← mv.get? 2
  let c3 ← mv.get? 3
  let r1 ← to_cordinate c1
  let f0 ← to_cordinate c0
  let r3 ← to_cordinate c3
  let f2 ← to_cordinate c2
  pure ((r1, f0), (r3, f2))

/-- `internal_to_network_piece` (`src/network.rs` lines 77–105). -/
def internal_to_network_piece (internal : Square) : NetPiece :=
  match internal with
  | Square.Empty => NetPiece.None
  | Square.Pawn color =>
    match color with
    | Color.White => NetPiece.WhitePawn
    | Color.Black => NetPiece.BlackPawn
  | Square.Rook color =>
    match color with
    | Color.White => NetPiece.WhiteRook
    | Color.Black => NetPiece.BlackRook
  | Square.Bishop color =>
    match color with
    | Color.White => NetPiece.WhiteBishop
    | Color.Black => NetPiece.BlackBishop
  | Square.Knight color =>
    match color with
    | Color.White => NetPiece.WhiteKnight
    | Color.Black => NetPiece.BlackKnight
  | Square.King color =>
    match color with
    | Color.White => NetPiece.WhiteKing
    | Color.Black => NetPiece.BlackKing
  | Square.Queen color =>
    match color with
    | Color.White => NetPiece.WhiteQueen
    | Color.Black => NetPiece.BlackQueen

/-- One write `board[i][j] = v` into a wire board. -/
def writeCell (bd : WireBoard) (i j : Fin 8) (v : NetPiece) : WireBoard :=
  fun r c => if r = i ∧ c = j then v else bd r c

/-- `internal_to_network_board` (`src/network.rs` lines 107–121).
Starts from an all-`None` board and executes the double loop
`for row in 0..8 { for col in 0..8 { board[7 - row][col] = piece(internal[row][col]) } }`. -/
def internal_to_network_board (internal : Board) : WireBoard :=
  (List.range 8).foldl
    (fun bd row =>
      (List.range 8).foldl
        (fun bd2 col =>
          if h : row < 8 ∧ col < 8 then
            writeCell bd2 ⟨7 - row, by omega⟩ ⟨col, h.2⟩
              (internal_to_network_piece (internal ⟨row, h.1⟩ ⟨col, h.2⟩))
          else bd2)
        bd)
    (fun _ _ => NetPiece.None)

/-- The promotion-letter table inside `internal_to_network_move`
(`src/network.rs` lines 134–144); the `_` arm is `panic!("Invalid promotion piece")`. -/
def promo_of_char (c : Char) : Option NetPiece :=
  match c with
  | 'R' => some NetPiece.WhiteRook
  | 'r' => some NetPiece.BlackRook
  | 'B' => some NetPiece.WhiteBishop
  | 'b' => some NetPiece.BlackBishop
  | 'N' => some NetPiece.WhiteKnight
  | 'n' => some NetPiece.BlackKnight
  | 'Q' => some NetPiece.WhiteQueen
  | 'q' => some NetPiece.BlackQueen
  | _ => none

/-- `internal_to_network_move` (`src/network.rs` lines 123–154).
Destructures `parse_move` as `((start_x, start_y), (end_x, end_y))`, flips
both `y`s (`7 - y`), and, when the notation has 5 characters, maps the last
character through the promotion table. -/
def internal_to_network_move (internal : Move) : Option NetMove := do
  let ((start_x, start_y0), (end_x, end_y0)) ← parse_move internal.algebraic
  let start_y := 7 - start_y0
  let end_y := 7 - end_y0
  let promotion ←
    if internal.algebraic.length = 5 then do
      let c ← internal.algebraic.getLast?
      promo_of_char c
    else
      pure NetPiece.None
  pure { start_x := start_x, start_y := start_y, end_x := end_x, end_y := end_y,
         promotion := promotion }

/-- `internal_to_network_moves` (`src/network.rs` lines 156–162): element-wise,
order-preserving translation (a panic on any element aborts the whole loop). -/
def internal_to_network_moves : List Move → Option (List NetMove)
  | [] => some []
  | mv :: rest => do
    let w ← internal_to_network_move mv
    let ws ← internal_to_network_moves rest
    pure (w :: ws)

/-- The legal-move engine `jonathan_hallstrom_chess::Board`, an external
oracle (spec §1): the three operations this code calls on it, over an
abstract board type `B`. `play_move` returns `none` when the engine rejects
the move (the source immediately `unwrap`s that, i.e. panics). -/
structure Engine (B : Type) where
  get_legal_moves : B → List Move
  play_move : B → Move → Option B
  to_fen : B → List Char

/-- The inner `while col < 8` loop of `parse_fen` (`src/main.rs` lines 87–112)
for row `row`: consumes characters, skipping `digit` columns for a numeric
character and writing one piece otherwise.  Running out of characters
(`iter.next().unwrap()`), a `'/'`, or a non-alphanumeric character is a panic
(`none`).  Returns the unconsumed characters and the updated board. -/
def parse_fen_row (row : Fin 8) : List Char → Nat → Board → Option (List Char × Board)
  | [], col, bd => if col < 8 then none else some ([], bd)
  | c :: rest, col, bd =>
    if h : col < 8 then
      if c = '/' then none
      else if ¬ c.isAlphanum then none
      else if c.isDigit then
        parse_fen_row row rest (col + (c.toNat - '0'.toNat)) bd
      else
        let color := if c.isUpper then Color.White else Color.Black
        let sq :=
          match c.toLower with
          | 'p' => Square.Pawn color
          | 'b' => Square.Bishop color
          | 'r' => Square.Rook color
          | 'n' => Square.Knight color
          | 'q' => Square.Queen color
          | _ => Square.King color
        parse_fen_row row rest (col + 1)
          (fun r k => if r = row ∧ k = ⟨col, h⟩ then sq else bd r k)
    else some (c :: rest, bd)

/-- The outer `while row < 8` loop of `parse_fen` (`src/main.rs` lines 86–118),
with the remaining iteration count as fuel (`parse_fen` enters with fuel 8 and
`row = 0`).  After each row one separator character is consumed and asserted to
be `'/'` (rows 0–6) or `' '` (row 7). -/
def parse_fen_outer : Nat → Nat → List Char → Board → Option Board
  | 0, _, _, bd => some bd
  | fuel + 1, row, cs, bd =>
    if h : row < 8 then
      match parse_fen_row ⟨row, h⟩ cs 0 bd with
      | none => none
      | some (rest, bd1) =>
        match rest with
        | [] => none
        | c :: rest1 =>
          if (c = '/' ∧ row < 7) ∨ (c = ' ' ∧ row = 7) then
            parse_fen_outer fuel (row + 1) rest1 bd1
          else none
    else some bd

/-- `parse_fen` (`src/main.rs` lines 82–120). -/
def parse_fen (fen : List Char) : Option Board :=
  parse_fen_outer 8 0 fen (fun _ _ => Square.Empty)

/-- The legal-move index `[[HashMap<(usize,usize), Vec<Move>>; 8]; 8]`
(`BoardRepr::legal_moves`), with the two leading array indices and the
`HashMap` key uncurried and an absent key read as the empty list. -/
def LegalIndex : Type := Nat → Nat → (Nat × Nat) → List Move

/-- The loop body of `parse_moves` (`src/main.rs` lines 139–150): for each
move, parse its notation and push it at the end of the candidate list at
`parsed[from.0][from.1][to]` (a notation that fails to parse is a panic). -/
def parse_moves_aux : List Move → LegalIndex → Option LegalIndex
  | [], idx => some idx
  | mv :: rest, idx =>
    match parse_move mv.algebraic with
    | none => none
    | some (fr, dst) =>
      parse_moves_aux rest
        (fun r c dest =>
          if r = fr.1 ∧ c = fr.2 ∧ dest = dst then idx r c dest ++ [mv]
          else idx r c dest)

/-- `parse_moves` (`src/main.rs` lines 139–150). -/
def parse_moves (moves : List Move) : Option LegalIndex :=
  parse_moves_aux moves (fun _ _ _ => [])

/-- `BoardRepr` (`src/main.rs` lines 199–205). -/
structure BoardRepr where
  squares : Board
  legal_moves : LegalIndex
  selected_from : Option (Nat × Nat)
  selected_to : Option (Nat × Nat)

/-- The mutable state of `Game` (`src/main.rs` lines 218–230) that the
synchronizer touches: the engine board, the board representation, and the
session's `is_server` flag (from the `Network` field). -/
structure Game (B : Type) where
  board : B
  board_repr : BoardRepr
  is_server : Bool

/-- `Game::refresh_board` (`src/main.rs` lines 233–239): recompute the
legal-move index and the board snapshot from the engine and clear both
selections.  Either recomputation can panic (`none`). -/
def refresh_board {B : Type} (E : Engine B) (g : Game B) : Option (Game B) :=
  match parse_moves (E.get_legal_moves g.board) with
  | none => none
  | some idx =>
    match parse_fen (E.to_fen g.board) with
    | none => none
    | some sq =>
      some { board := g.board,
             board_repr := { squares := sq, legal_moves := idx,
                             selected_from := none, selected_to := none },
             is_server := g.is_server }

/-- The panic sites reachable from the synchronizer, as error kinds:
`illegalMove` is `play_move(..).unwrap()`, `decodeFailure` a panic inside the
move translator, `reprFailure` a panic inside `refresh_board`, and
`protocolViolation` the `panic!("No internal move matching opponent move
found!!!")` in `server_play_move`. -/
inductive Panic where
  | illegalMove
  | decodeFailure
  | reprFailure
  | protocolViolation
deriving DecidableEq

/-- `self.board.play_move(mv).unwrap(); self.refresh_board();` — the shared
tail of `server_play_move` and `play_move` (`src/main.rs` lines 414–415 and
423–424). -/
def apply_and_refresh {B : Type} (E : Engine B) (g : Game B) (mv : Move) :
    Except Panic (Game B) :=
  match E.play_move g.board mv with
  | none => Except.error Panic.illegalMove
  | some b1 =>
    match refresh_board E { board := b1, board_repr := g.board_repr,
                            is_server := g.is_server } with
    | none => Except.error Panic.reprFailure
    | some g1 => Except.ok g1

/-- The `for mv in legal_moves` loop of `server_play_move`
(`src/main.rs` lines 410–420) over the remaining candidate list: translate the
candidate (a translation panic aborts), compare with the received wire record,
and on the first match apply and refresh; falling off the end is the
`panic!("No internal move matching opponent move found!!!")`. -/
def server_play_move_scan {B : Type} (E : Engine B) (g : Game B) (w : NetMove) :
    List Move → Except Panic (Game B)
  | [] => Except.error Panic.protocolViolation
  | mv :: rest =>
    match internal_to_network_move mv with
    | none => Except.error Panic.decodeFailure
    | some w1 =>
      if w1 = w then apply_and_refresh E g mv
      else server_play_move_scan E g w rest

/-- `Game::server_play_move` (`src/main.rs` lines 410–420). -/
def server_play_move {B : Type} (E : Engine B) (g : Game B) (w : NetMove) :
    Except Panic (Game B) :=
  server_play_move_scan E g w (E.get_legal_moves g.board)

/-- `chess_network_protocol::ClientToServer` (the variant this code sends). -/
inductive ClientToServerMsg where
  | Move (m : NetMove)

/-- `chess_network_protocol::ServerToClient`.  The fields of the `Error`,
`Resigned` and `Draw` variants are never read by this code (`{ .. }`
patterns) and are elided. -/
inductive ServerToClientMsg where
  | State (board : WireBoard) (moves : List NetMove) (joever : Joever)
      (move_made : NetMove)
  | Error
  | Resigned
  | Draw

/-- The one message `Game::play_move` writes to the stream: a
`ServerToClient::State` when this peer is the server, a
`ClientToServer::Move` when it is the client. -/
inductive PlaySent where
  | srv (m : ServerToClientMsg)
  | cli (m : ClientToServerMsg)

/-- `Game::play_move` (`src/main.rs` lines 422–439): apply the move through
the engine (`unwrap`), refresh the local representation, and only then build
and send the one network message for this peer's role.  The result pairs the
new local state with the message written to the stream. -/
def play_move {B : Type} (E : Engine B) (g : Game B) (player_move : Move) :
    Except Panic (Game B × PlaySent) :=
  match apply_and_refresh E g player_move with
  | Except.error e => Except.error e
  | Except.ok g1 =>
    if g.is_server then
      match internal_to_network_moves (E.get_legal_moves g1.board) with
      | none => Except.error Panic.decodeFailure
      | some ws =>
        match internal_to_network_move player_move with
        | none => Except.error Panic.decodeFailure
        | some wm =>
          Except.ok (g1, PlaySent.srv (ServerToClientMsg.State
            (internal_to_network_board g1.board_repr.squares) ws
            Joever.Ongoing wm))
    else
      match internal_to_network_move player_move with
      | none => Except.error Panic.decodeFailure
      | some wm => Except.ok (g1, PlaySent.cli (ClientToServerMsg.Move wm))

/-- `chess_network_protocol::ClientToServerHandshake`. -/
structure ClientToServerHandshake where
  server_color : NetColor
deriving DecidableEq

/-- `chess_network_protocol::ServerToClientHandshake`. -/
structure ServerToClientHandshake where
  board : WireBoard
  features : List Features
  joever : Joever
  moves : List NetMove

/-- `internal_to_server_handshake` (`src/network.rs` lines 164–177); the
legal-move translation can panic (`none`). -/
def internal_to_server_handshake {B : Type} (E : Engine B) (repr : BoardRepr)
    (board : B) : Option ServerToClientHandshake :=
  match internal_to_network_moves (E.get_legal_moves board) with
  | none => none
  | some ms =>
    some { board := internal_to_network_board repr.squares,
           features := [Features.EnPassant, Features.Promotion],
           joever := Joever.White,
           moves := ms }

/-- The `Handshake` enum of `src/network.rs` (lines 15–18). -/
inductive HandshakeMsg where
  | ServerToClient (s : ServerToClientHandshake)
  | ClientToServer (c : ClientToServerHandshake)

/-- The `Network` session record (`src/network.rs` lines 9–13), without the
stream handle. -/
structure Network where
  is_server : Bool
  player_color : Color
deriving DecidableEq

/-- `handshake` (`src/network.rs` lines 35–75), as a function of the handshake
payload this peer was constructed with and of the `ClientToServerHandshake`
read from the stream (only the server branch performs that read; the client
branch reads a `ServerToClientHandshake` whose contents do not affect the
resulting session state). -/
def handshake (hs : HandshakeMsg) (received : ClientToServerHandshake) : Network :=
  match hs with
  | HandshakeMsg.ServerToClient _ =>
    { is_server := true,
      player_color :=
        match received.server_color with
        | NetColor.White => Color.White
        | NetColor.Black => Color.Black }
  | HandshakeMsg.ClientToServer c2s =>
    { is_server := false,
      player_color :=
        match c2s.server_color with
        | NetColor.White => Color.Black
        | NetColor.Black => Color.White }

/-- The outcome of one `serde_json::from_reader` call on the non-blocking
stream: either a decoded message, or an error — which in the source covers
both "no bytes available yet" (`WouldBlock`) and "bytes received but failed to
deserialize". -/
inductive DeserializeFailure where
  | wouldBlock
  | invalidData
deriving DecidableEq

/-- `Network::get_board_state` (`src/network.rs` lines 202–207):
`if let Ok(state) = serde_json::from_reader(&self.stream) { return Some(state); } None`. -/
def get_board_state (read : Except DeserializeFailure ServerToClientMsg) :
    Option ServerToClientMsg :=
  match read with
  | Except.ok state => some state
  | Except.error _ => none

/-! ### A small concrete engine instance, used by witnesses and counterexamples.

`Bool` is the board state: `false` is the initial position (one legal move,
`e2e4`), `true` the position after it (no legal moves, one white pawn on the
board's first exported row). -/

/-- The internal move with notation `e2e4`. -/
def mv_e2e4 : Move := { algebraic := ['e', '2', 'e', '4'] }

/-- What `internal_to_network_move` actually produces for `e2e4`. -/
def wire_e2e4 : NetMove :=
  { start_x := 6, start_y := 3, end_x := 4, end_y := 3, promotion := NetPiece.None }

/-- A concrete engine oracle over `Bool` boards. -/
def engine0 : Engine Bool :=
  { get_legal_moves := fun b => if b then [] else [mv_e2e4],
    play_move := fun b _ => if b then none else some true,
    to_fen := fun b =>
      if b then "P7/8/8/8/8/8/8/8 w".toList else "8/8/8/8/8/8/8/8 w".toList }

/-- A concrete client-side game state at `engine0`'s initial position. -/
def game0 : Game Bool :=
  { board := false,
    board_repr := { squares := fun _ _ => Square.Empty,
                    legal_moves := fun _ _ _ => [],
                    selected_from := none, selected_to := none },
    is_server := false }

/-- The result of `play_move` at the concrete client state. -/
def play0 : Except Panic (Game Bool × PlaySent) := play_move engine0 game0 mv_e2e4

/-- The game state `play_move engine0 game0 mv_e2e4` results in. -/
def game1 : Game Bool :=
  match play0 with
  | Except.ok p => p.1
  | Except.error _ => game0

/-- The message `play_move engine0 game0 mv_e2e4` sends. -/
def sent1 : PlaySent :=
  match play0 with
  | Except.ok p => p.2
  | Except.error _ => PlaySent.cli (ClientToServerMsg.Move wire_e2e4)

/-- The vertical flip of a row index, `7 - r`. -/
def flipRow (r : Fin 8) : Fin 8 := ⟨7 - r.val, by omega⟩

/-- The vertical flip of an 8×8 grid: row `r` reads row `7 - r`. -/
def flipRows {α : Type} (f : Fin 8 → Fin 8 → α) : Fin 8 → Fin 8 → α :=
  fun r c => f (flipRow r) c

example : to_cordinate 'e' = some 4 := by decide
example : to_cordinate '2' = some 6 := by decide
example : parse_move ['e', '2', 'e', '4'] = some ((6, 4), (4, 4)) := by decide
example : (parse_fen ("P7/8/8/8/8/8/8/8 w".toList)).isSome := by decide
example :
    (parse_fen ("P7/8/8/8/8/8/8/8 w".toList)).map (fun bd => bd 0 0) =
      some (Square.Pawn Color.White) := by decide
example :
    (play_move engine0 game0 mv_e2e4).toOption.map (fun p => p.1.board) =
      some true := by decide

theorem flipRow_flipRow (r : Fin 8) : flipRow (flipRow r) = r := by
  apply Fin.ext
  show 7 - (7 - r.val) = r.val
  omega

/-- Reading any cell of the board produced by `internal_to_network_board`'s
write loop: wire cell `(r, c)` holds the translated piece of internal cell
`(7 - r, c)` (the loop writes it at iteration `row = 7 - r`). -/
theorem internal_to_network_board_cell (b : Board) (r c : Fin 8) :
    internal_to_network_board b r c = internal_to_network_piece (b (flipRow r) c) := by
  fin_cases r <;> fin_cases c <;> rfl

/-- Claim C1, counterexample: encoding the internal move `e2e4` with
`internal_to_network_move` does not yield the wire record
`Move{start_x:4, start_y:6, end_x:4, end_y:4, promotion:None}` stated by the
spec scenario. -/
theorem e2e4_wire_encoding_cex :
    internal_to_network_move mv_e2e4 ≠
      some { start_x := 4, start_y := 6, end_x := 4, end_y := 4,
             promotion := NetPiece.None } := by
  decide

/-- Claim C1, amended: encoding the internal move `e2e4` with
`internal_to_network_move` yields
`Move{start_x:6, start_y:3, end_x:4, end_y:3, promotion:None}` — the code
assigns the rank-derived internal row index (already `7 - (rank - 1)`) to
`start_x`/`end_x` and `7 - file` to `start_y`/`end_y`. -/
theorem e2e4_wire_encoding :
    internal_to_network_move mv_e2e4 =
      some { start_x := 6, start_y := 3, end_x := 4, end_y := 3,
             promotion := NetPiece.None } := by
  decide

/-- Claim C3: the `ServerToClientHandshake` record built by
`internal_to_server_handshake` carries the feature flags EnPassant and
Promotion and the full translated legal-move list, but its initial outcome tag
is `Joever::White`, not the game-ongoing value — evaluated at the concrete
`engine0` starting state. -/
theorem server_handshake_joever_white :
    (internal_to_server_handshake engine0 game0.board_repr false).map
        (fun h => (h.joever, h.features, h.moves)) =
      some (Joever.White, [Features.EnPassant, Features.Promotion], [wire_e2e4])
    ∧ Joever.White ≠ Joever.Ongoing := by
  decide

/-- Claim C4: `get_board_state` returns the same `None` for a read whose
deserialization failed on received bytes as for a read with no message
available — a decode failure is not surfaced as an error. -/
theorem get_board_state_conflates :
    get_board_state (Except.error DeserializeFailure.invalidData) = none
    ∧ get_board_state (Except.error DeserializeFailure.wouldBlock) = none := by
  exact ⟨rfl, rfl⟩

/-- Claim C7: the handshake resolves colors by exact inversion — a client that
requests `server_color = c` resolves its own color to the opposite of `c`,
and the server resolves its own color to exactly the `server_color` it
received. -/
theorem handshake_color_inversion :
    ∀ (payload : ServerToClientHandshake) (received : ClientToServerHandshake)
      (c : NetColor),
      (handshake (HandshakeMsg.ClientToServer { server_color := c })
          received).player_color =
        (match c with | NetColor.White => Color.Black | NetColor.Black => Color.White)
      ∧ (handshake (HandshakeMsg.ServerToClient payload)
          { server_color := c }).player_color =
        (match c with | NetColor.White => Color.White | NetColor.Black => Color.Black) := by
  intro payload received c
  cases c <;> exact ⟨rfl, rfl⟩

/-- Claim C8: `internal_to_network_board` places the translated piece of
internal cell `(r, c)` at wire cell `(7 - r, c)` (vertical flip only, columns
unchanged), flipping the wire board back recovers the original row
assignment, and the vertical flip is an involution. -/
theorem board_wire_flip :
    (∀ (b : Board) (r c : Fin 8),
        internal_to_network_board b (flipRow r) c =
          internal_to_network_piece (b r c))
    ∧ (∀ (b : Board) (r c : Fin 8),
        flipRows (internal_to_network_board b) r c =
          internal_to_network_piece (b r c))
    ∧ (∀ (w : WireBoard), flipRows (flipRows w) = w) := by
  refine ⟨?_, ?_, ?_⟩
  · intro b r c
    rw [internal_to_network_board_cell, flipRow_flipRow]
  · intro b r c
    show internal_to_network_board b (flipRow r) c = _
    rw [internal_to_network_board_cell, flipRow_flipRow]
  · intro w
    funext r c
    show w (flipRow (flipRow r)) c = w r c
    rw [flipRow_flipRow]

theorem char_toNat_inj (c1 c2 : Char) (h : c1.toNat = c2.toNat) : c1 = c2 :=
  Char.ext (UInt32.ext h)

theorem to_cordinate_file_eq (c : Char) (h1 : 'a'.toNat ≤ c.toNat)
    (h2 : c.toNat ≤ 'h'.toNat) : to_cordinate c = some (c.toNat - 'a'.toNat) := by
  unfold to_cordinate
  rw [if_pos ⟨h1, h2⟩]

theorem to_cordinate_rank_eq (c : Char) (h1 : '1'.toNat ≤ c.toNat)
    (h2 : c.toNat ≤ '8'.toNat) :
    to_cordinate c = some (7 - (c.toNat - '1'.toNat)) := by
  have ea : 'a'.toNat = 97 := rfl
  have e8 : '8'.toNat = 56 := rfl
  have e1 : '1'.toNat = 49 := rfl
  unfold to_cordinate
  rw [if_neg (by omega), if_pos (by omega)]

theorem to_cordinate_le_7 (c : Char) (v : Nat) (h : to_cordinate c = some v) :
    v ≤ 7 := by
  have ea : 'a'.toNat = 97 := rfl
  have eh : 'h'.toNat = 104 := rfl
  unfold to_cordinate at h
  split at h
  · rename_i hcond
    have := Option.some.inj h
    omega
  · split at h
    · rename_i hcond
      have := Option.some.inj h
      omega
    · exact Option.noConfusion h

/-- Claim C9: `to_cordinate` maps every file letter `c` in `'a'..'h'` to
`c - 'a'` and every rank digit `d` in `'1'..'8'` to `7 - (d - '1')`, and on
each of these two 8-value input classes it is a bijection onto `0..7`
(injective on the class, and every index below 8 is hit by exactly the
class's members). -/
theorem to_cordinate_codec_bijection :
    (∀ c : Char, 'a'.toNat ≤ c.toNat → c.toNat ≤ 'h'.toNat →
        to_cordinate c = some (c.toNat - 'a'.toNat))
    ∧ (∀ c : Char, '1'.toNat ≤ c.toNat → c.toNat ≤ '8'.toNat →
        to_cordinate c = some (7 - (c.toNat - '1'.toNat)))
    ∧ (∀ c1 c2 : Char, 'a'.toNat ≤ c1.toNat → c1.toNat ≤ 'h'.toNat →
        'a'.toNat ≤ c2.toNat → c2.toNat ≤ 'h'.toNat →
        to_cordinate c1 = to_cordinate c2 → c1 = c2)
    ∧ (∀ c1 c2 : Char, '1'.toNat ≤ c1.toNat → c1.toNat ≤ '8'.toNat →
        '1'.toNat ≤ c2.toNat → c2.toNat ≤ '8'.toNat →
        to_cordinate c1 = to_cordinate c2 → c1 = c2)
    ∧ (∀ i : Nat, i ≤ 7 →
        (∃ c : Char, 'a'.toNat ≤ c.toNat ∧ c.toNat ≤ 'h'.toNat ∧
            to_cordinate c = some i)
        ∧ (∃ c : Char, '1'.toNat ≤ c.toNat ∧ c.toNat ≤ '8'.toNat ∧
            to_cordinate c = some i)) := by
  have ea : 'a'.toNat = 97 := rfl
  have e1 : '1'.toNat = 49 := rfl
  refine ⟨to_cordinate_file_eq, to_cordinate_rank_eq, ?_, ?_, ?_⟩
  · intro c1 c2 ha1 hh1 ha2 hh2 heq
    rw [to_cordinate_file_eq c1 ha1 hh1, to_cordinate_file_eq c2 ha2 hh2] at heq
    have := Option.some.inj heq
    exact char_toNat_inj c1 c2 (by omega)
  · intro c1 c2 h11 h81 h12 h82 heq
    rw [to_cordinate_rank_eq c1 h11 h81, to_cordinate_rank_eq c2 h12 h82] at heq
    have e8 : '8'.toNat = 56 := rfl
    have := Option.some.inj heq
    exact char_toNat_inj c1 c2 (by omega)
  · intro i hi
    interval_cases i
    · exact ⟨⟨'a', by decide, by decide, by decide⟩, ⟨'8', by decide, by decide, by decide⟩⟩
    · exact ⟨⟨'b', by decide, by decide, by decide⟩, ⟨'7', by decide, by decide, by decide⟩⟩
    · exact ⟨⟨'c', by decide, by decide, by decide⟩, ⟨'6', by decide, by decide, by decide⟩⟩
    · exact ⟨⟨'d', by decide, by decide, by decide⟩, ⟨'5', by decide, by decide, by decide⟩⟩
    · exact ⟨⟨'e', by decide, by decide, by decide⟩, ⟨'4', by decide, by decide, by decide⟩⟩
    · exact ⟨⟨'f', by decide, by decide, by decide⟩, ⟨'3', by decide, by decide, by decide⟩⟩
    · exact ⟨⟨'g', by decide, by decide, by decide⟩, ⟨'2', by decide, by decide, by decide⟩⟩
    · exact ⟨⟨'h', by decide, by decide, by decide⟩, ⟨'1', by decide, by decide, by decide⟩⟩

/-- Witness for claim C9: the pointwise formulas and the surjectivity, read
off at the concrete inputs `'c'`, `'3'` and index `0`. -/
theorem to_cordinate_codec_bijection_witness :
    to_cordinate 'c' = some ('c'.toNat - 'a'.toNat)
    ∧ to_cordinate '3' = some (7 - ('3'.toNat - '1'.toNat))
    ∧ (∃ c : Char, 'a'.toNat ≤ c.toNat ∧ c.toNat ≤ 'h'.toNat ∧
        to_cordinate c = some 0) :=
  ⟨to_cordinate_codec_bijection.1 'c' (by decide) (by decide),
   to_cordinate_codec_bijection.2.1 '3' (by decide) (by decide),
   (to_cordinate_codec_bijection.2.2.2.2 0 (by decide)).1⟩

/-- Claim C10: for every string of length at least 4 whose characters at
positions 0 and 2 are file letters and at positions 1 and 3 are rank digits,
`parse_move` returns two coordinate pairs with every component at most 7
without panicking; outside that precondition `parse_move` (too few
characters) or `to_cordinate` (characters of other classes, causing
out-of-bounds indexing or `usize` underflow in the source) can fail. -/
theorem parse_move_safe :
    (∀ (c0 c1 c2 c3 : Char) (rest : List Char),
        'a'.toNat ≤ c0.toNat → c0.toNat ≤ 'h'.toNat →
        '1'.toNat ≤ c1.toNat → c1.toNat ≤ '8'.toNat →
        'a'.toNat ≤ c2.toNat → c2.toNat ≤ 'h'.toNat →
        '1'.toNat ≤ c3.toNat → c3.toNat ≤ '8'.toNat →
        ∃ r1 f0 r3 f2 : Nat,
          parse_move (c0 :: c1 :: c2 :: c3 :: rest) = some ((r1, f0), (r3, f2))
          ∧ r1 ≤ 7 ∧ f0 ≤ 7 ∧ r3 ≤ 7 ∧ f2 ≤ 7)
    ∧ parse_move ['e', '2', 'e'] = none
    ∧ to_cordinate '9' = none
    ∧ to_cordinate '0' = none
    ∧ to_cordinate 'A' = none
    ∧ to_cordinate 'i' = none := by
  refine ⟨?_, by decide, by decide, by decide, by decide, by decide⟩
  intro c0 c1 c2 c3 rest ha0 hh0 h11 h81 ha2 hh2 h13 h83
  have ea : 'a'.toNat = 97 := rfl
  have eh : 'h'.toNat = 104 := rfl
  have e1 : '1'.toNat = 49 := rfl
  have e8 : '8'.toNat = 56 := rfl
  refine ⟨7 - (c1.toNat - '1'.toNat), c0.toNat - 'a'.toNat,
          7 - (c3.toNat - '1'.toNat), c2.toNat - 'a'.toNat, ?_, ?_, ?_, ?_, ?_⟩
  · simp [parse_move, to_cordinate_file_eq c0 ha0 hh0,
          to_cordinate_rank_eq c1 h11 h81, to_cordinate_file_eq c2 ha2 hh2,
          to_cordinate_rank_eq c3 h13 h83]
  · omega
  · omega
  · omega
  · omega

/-- Witness for claim C10: the safety statement applied at the concrete
notation `e2e4`. -/
theorem parse_move_safe_witness :
    ∃ r1 f0 r3 f2 : Nat,
      parse_move ['e', '2', 'e', '4'] = some ((r1, f0), (r3, f2))
      ∧ r1 ≤ 7 ∧ f0 ≤ 7 ∧ r3 ≤ 7 ∧ f2 ≤ 7 :=
  parse_move_safe.1 'e' '2' 'e' '4' [] (by decide) (by decide) (by decide)
    (by decide) (by decide) (by decide) (by decide) (by decide)

/-- Unfolding `internal_to_network_move` on a 5-character notation whose
coordinate part parses: the result is the promotion table's output mapped
into the wire record. -/
theorem internal_to_network_move_promo (m : Move) (x : (Nat × Nat) × (Nat × Nat))
    (c : Char) (hparse : parse_move m.algebraic = some x)
    (hlen : m.algebraic.length = 5)
    (hlast : m.algebraic.getLast? = some c) :
    internal_to_network_move m =
      (promo_of_char c).map (fun p =>
        { start_x := x.1.1, start_y := 7 - x.1.2, end_x := x.2.1,
          end_y := 7 - x.2.2, promotion := p }) := by
  rcases x with ⟨⟨a, b⟩, d, e⟩
  simp only [internal_to_network_move, hparse, hlen, hlast, Option.some_bind,
    Option.bind_eq_bind, reduceIte]
  cases promo_of_char c <;> rfl

theorem promo_of_char_isSome (c : Char) :
    (promo_of_char c).isSome ↔
      (c = 'R' ∨ c = 'r' ∨ c = 'B' ∨ c = 'b' ∨ c = 'N' ∨ c = 'n' ∨
       c = 'Q' ∨ c = 'q') := by
  unfold promo_of_char
  split <;> simp_all

/-- Claim C6: on a 5-character notation (with a parsing coordinate part),
`internal_to_network_move` maps the final character through the
color-qualified promotion table — `R`/`r`, `B`/`b`, `N`/`n`, `Q`/`q` to the
white/black Rook, Bishop, Knight, Queen — and the encoding succeeds if and
only if the final character is one of those eight. -/
theorem promotion_letter_encoding :
    ∀ (m : Move) (c : Char),
      m.algebraic.length = 5 →
      (parse_move m.algebraic).isSome →
      m.algebraic.getLast? = some c →
      ((internal_to_network_move m).isSome ↔
        (c = 'R' ∨ c = 'r' ∨ c = 'B' ∨ c = 'b' ∨ c = 'N' ∨ c = 'n' ∨
         c = 'Q' ∨ c = 'q'))
      ∧ (∀ w : NetMove, internal_to_network_move m = some w →
          promo_of_char c = some w.promotion)
      ∧ (c = 'R' → ∃ w, internal_to_network_move m = some w ∧
          w.promotion = NetPiece.WhiteRook)
      ∧ (c = 'r' → ∃ w, internal_to_network_move m = some w ∧
          w.promotion = NetPiece.BlackRook)
      ∧ (c = 'B' → ∃ w, internal_to_network_move m = some w ∧
          w.promotion = NetPiece.WhiteBishop)
      ∧ (c = 'b' → ∃ w, internal_to_network_move m = some w ∧
          w.promotion = NetPiece.BlackBishop)
      ∧ (c = 'N' → ∃ w, internal_to_network_move m = some w ∧
          w.promotion = NetPiece.WhiteKnight)
      ∧ (c = 'n' → ∃ w, internal_to_network_move m = some w ∧
          w.promotion = NetPiece.BlackKnight)
      ∧ (c = 'Q' → ∃ w, internal_to_network_move m = some w ∧
          w.promotion = NetPiece.WhiteQueen)
      ∧ (c = 'q' → ∃ w, internal_to_network_move m = some w ∧
          w.promotion = NetPiece.BlackQueen) := by
  intro m c hlen hparse hlast
  obtain ⟨x, hx⟩ := Option.isSome_iff_exists.mp hparse
  rw [internal_to_network_move_promo m x c hx hlen hlast]
  have hmap_isSome : ∀ (o : Option NetPiece) (f : NetPiece → NetMove),
      (o.map f).isSome = o.isSome := by
    intro o f
    cases o <;> rfl
  refine ⟨?_, ?_, ?_, ?_, ?_, ?_, ?_, ?_, ?_, ?_⟩
  · rw [hmap_isSome]
    exact promo_of_char_isSome c
  · intro w hw
    obtain ⟨p, hp, hpe⟩ := Option.map_eq_some.mp hw
    rw [hp, ← hpe]
  · intro h; subst h; exact ⟨_, rfl, rfl⟩
  · intro h; subst h; exact ⟨_, rfl, rfl⟩
  · intro h; subst h; exact ⟨_, rfl, rfl⟩
  · intro h; subst h; exact ⟨_, rfl, rfl⟩
  · intro h; subst h; exact ⟨_, rfl, rfl⟩
  · intro h; subst h; exact ⟨_, rfl, rfl⟩
  · intro h; subst h; exact ⟨_, rfl, rfl⟩
  · intro h; subst h; exact ⟨_, rfl, rfl⟩

/-- Witness for claim C6: a length-5 notation ending in `'Q'` encodes with
`promotion = WhiteQueen`, and one ending in `'q'` with `BlackQueen`. -/
theorem promotion_letter_encoding_witness :
    (∃ w, internal_to_network_move { algebraic := ['a', '7', 'a', '8', 'Q'] } =
        some w ∧ w.promotion = NetPiece.WhiteQueen)
    ∧ (∃ w, internal_to_network_move { algebraic := ['a', '2', 'a', '1', 'q'] } =
        some w ∧ w.promotion = NetPiece.BlackQueen) :=
  ⟨(promotion_letter_encoding { algebraic := ['a', '7', 'a', '8', 'Q'] } 'Q'
      rfl (by decide) (by decide)).2.2.2.2.2.2.2.2.1 rfl,
   (promotion_letter_encoding { algebraic := ['a', '2', 'a', '1', 'q'] } 'q'
      rfl (by decide) (by decide)).2.2.2.2.2.2.2.2.2 rfl⟩

theorem apply_and_refresh_ok {B : Type} (E : Engine B) (g : Game B) (m : Move)
    (g1 : Game B) (h : apply_and_refresh E g m = Except.ok g1) :
    ∃ b1, E.play_move g.board m = some b1
      ∧ refresh_board E { board := b1, board_repr := g.board_repr,
                          is_server := g.is_server } = some g1 := by
  unfold apply_and_refresh at h
  split at h
  · exact Except.noConfusion h
  · rename_i b1 hp
    split at h
    · exact Except.noConfusion h
    · rename_i g2 hr
      exact ⟨b1, hp, by rw [hr, Except.ok.inj h]⟩

/-- Claim C2, counterexample: at the concrete client-side state `game0`,
`play_move` on `e2e4` does send the `ClientToServer::Move` message, but the
local board state does not stay unchanged — the board snapshot's cell (0,0)
goes from `Empty` to a white pawn in the same call, before any `State`
message from the server is processed. -/
theorem client_play_move_cex :
    game0.is_server = false
    ∧ ((play_move engine0 game0 mv_e2e4).toOption.map
        (fun p => match p.2 with
          | PlaySent.cli (ClientToServerMsg.Move w) => some w
          | _ => none)) = some (some wire_e2e4)
    ∧ ((play_move engine0 game0 mv_e2e4).toOption.map
        (fun p => p.1.board_repr.squares 0 0)) = some (Square.Pawn Color.White)
    ∧ game0.board_repr.squares 0 0 = Square.Empty := by
  refine ⟨rfl, by decide, by decide, rfl⟩

/-- Claim C2, amended: on the client peer, `play_move` first applies the move
through the engine and refreshes the local board state, and only then sends
the `ClientToServer::Move` message carrying the wire encoding of the move. -/
theorem client_play_move_sends_after_applying {B : Type} (E : Engine B)
    (g : Game B) (m : Move) (g1 : Game B) (msg : PlaySent)
    (hcli : g.is_server = false)
    (hok : play_move E g m = Except.ok (g1, msg)) :
    (∃ w, internal_to_network_move m = some w
      ∧ msg = PlaySent.cli (ClientToServerMsg.Move w))
    ∧ (∃ b1, E.play_move g.board m = some b1
      ∧ refresh_board E { board := b1, board_repr := g.board_repr,
                          is_server := g.is_server } = some g1) := by
  unfold play_move at hok
  split at hok
  · exact Except.noConfusion hok
  · rename_i g2 har
    rw [hcli] at hok
    simp only [Bool.false_eq_true, if_false] at hok
    split at hok
    · exact Except.noConfusion hok
    · rename_i w hw
      have hpair := Except.ok.inj hok
      rw [Prod.mk.injEq] at hpair
      have har1 : apply_and_refresh E g m = Except.ok g1 := by
        rw [har, hpair.1]
      exact ⟨⟨w, hw, hpair.2.symm⟩, apply_and_refresh_ok E g m g1 har1⟩

/-- Witness for claim C2 (amended): at the concrete client state, the
successful `play_move` call sent exactly the `ClientToServer::Move` message
carrying the wire encoding of the move. -/
theorem client_play_move_witness :
    ∃ w, internal_to_network_move mv_e2e4 = some w
      ∧ sent1 = PlaySent.cli (ClientToServerMsg.Move w) :=
  (client_play_move_sends_after_applying engine0 game0 mv_e2e4 game1 sent1 rfl
    (by rfl)).1

/-- The scan loop of `server_play_move` agrees with first-match search, as
long as every candidate in the list translates to a wire move without
panicking. -/
theorem server_play_move_scan_eq {B : Type} (E : Engine B) (g : Game B)
    (w : NetMove) :
    ∀ l : List Move, (∀ mv ∈ l, (internal_to_network_move mv).isSome) →
      server_play_move_scan E g w l =
        (match l.find? (fun mv => decide (internal_to_network_move mv = some w)) with
         | some mv => apply_and_refresh E g mv
         | none => Except.error Panic.protocolViolation) := by
  intro l
  induction l with
  | nil => intro _; rfl
  | cons mv rest ih =>
    intro h
    obtain ⟨w1, hw1⟩ :=
      Option.isSome_iff_exists.mp (h mv (List.mem_cons_self mv rest))
    by_cases heq : w1 = w
    · subst heq
      simp [server_play_move_scan, hw1, List.find?_cons]
    · have hne : (some w1 : Option NetMove) ≠ some w :=
        fun hx => heq (Option.some.inj hx)
      have hdec : decide ((some w1 : Option NetMove) = some w) = false :=
        decide_eq_false hne
      simp only [server_play_move_scan, hw1, List.find?_cons, hdec]
      rw [if_neg heq]
      exact ih (fun x hx => h x (List.mem_cons_of_mem mv hx))

/-- Claim C5: `server_play_move` applies a move if and only if the received
wire record equals the wire translation of some move in the current
legal-move list; it then applies the first such match in list order (and
refreshes state), and when no candidate matches it fails with the fatal
protocol-violation panic.  The hypotheses are the engine-oracle contract:
every legal move translates and plays without panicking, and the
representation refresh succeeds on any reached board. -/
theorem server_play_move_first_match {B : Type} (E : Engine B) (g : Game B)
    (w : NetMove)
    (henc : ∀ mv ∈ E.get_legal_moves g.board, (internal_to_network_move mv).isSome)
    (hplay : ∀ mv ∈ E.get_legal_moves g.board, (E.play_move g.board mv).isSome)
    (hrefresh : ∀ b1 : B,
      (refresh_board E { board := b1, board_repr := g.board_repr,
                         is_server := g.is_server }).isSome) :
    (server_play_move E g w =
      (match (E.get_legal_moves g.board).find?
          (fun mv => decide (internal_to_network_move mv = some w)) with
       | some mv => apply_and_refresh E g mv
       | none => Except.error Panic.protocolViolation))
    ∧ ((∀ mv ∈ E.get_legal_moves g.board, internal_to_network_move mv ≠ some w) →
        server_play_move E g w = Except.error Panic.protocolViolation)
    ∧ ((∃ g1, server_play_move E g w = Except.ok g1) ↔
        ∃ mv ∈ E.get_legal_moves g.board, internal_to_network_move mv = some w) := by
  have hmain := server_play_move_scan_eq E g w (E.get_legal_moves g.board) henc
  refine ⟨hmain, ?_, ?_⟩
  · intro hnone
    have hfind : (E.get_legal_moves g.board).find?
        (fun mv => decide (internal_to_network_move mv = some w)) = none :=
      List.find?_eq_none.mpr (fun x hx => by simp [hnone x hx])
    unfold server_play_move
    rw [hmain, hfind]
  · constructor
    · rintro ⟨g1, hg1⟩
      unfold server_play_move at hg1
      rw [hmain] at hg1
      split at hg1
      · rename_i mv hfind
        have hmem := List.mem_of_find?_eq_some hfind
        have hp := List.find?_some hfind
        rw [decide_eq_true_eq] at hp
        exact ⟨mv, hmem, hp⟩
      · exact Except.noConfusion hg1
    · rintro ⟨mv, hmem, hwv⟩
      have hiss : ((E.get_legal_moves g.board).find?
          (fun mv => decide (internal_to_network_move mv = some w))).isSome := by
        rw [List.find?_isSome]
        exact ⟨mv, hmem, by simp [hwv]⟩
      obtain ⟨mv0, hmv0⟩ := Option.isSome_iff_exists.mp hiss
      have hmem0 := List.mem_of_find?_eq_some hmv0
      obtain ⟨b1, hb1⟩ := Option.isSome_iff_exists.mp (hplay mv0 hmem0)
      obtain ⟨g1, hg1⟩ := Option.isSome_iff_exists.mp (hrefresh b1)
      refine ⟨g1, ?_⟩
      unfold server_play_move
      rw [hmain]
      simp only [hmv0]
      simp only [apply_and_refresh, hb1, hg1]

/-- Witness for claim C5: the applies-iff-match equivalence read off at the
concrete server state and the wire record of `e2e4`. -/
theorem server_play_move_first_match_witness :
    (∃ g1, server_play_move engine0 game0 wire_e2e4 = Except.ok g1) ↔
      ∃ mv ∈ engine0.get_legal_moves game0.board,
        internal_to_network_move mv = some wire_e2e4 :=
  (server_play_move_first_match engine0 game0 wire_e2e4 (by decide) (by decide)
    (by decide)).2.2

end Chess
